/-
Verification of the MetaKG metabolic simulation engine (`metakg/simulate.py`)
against its natural-language specification.

The development shallowly embeds the simulator: Python floats are modelled as
rationals (`Rat`), Python dicts as insertion-ordered association lists with
first-key-wins lookup and in-place update, and the external numerical
libraries (`scipy.optimize.linprog`, `scipy.integrate.solve_ivp`) as opaque
function parameters so that theorems quantifying over them capture
"the solver is not consulted" / "the result is handed to the solver".
-/
import Mathlib

set_option linter.unusedVariables false

namespace MetaKG

/-! ### Python-dict semantics over association lists

`dget` is `dict.get` (first matching key wins; in a genuine Python dict keys
are unique so this is exact), `dset` is `dict[k] = v` (update in place if the
key is present, else append, preserving insertion order). -/

def dget {β : Type} : List (String × β) → String → Option β
  | [], _ => none
  | p :: rest, k => if p.1 = k then some p.2 else dget rest k

def dset {β : Type} : List (String × β) → String → β → List (String × β)
  | [], k, v => [(k, v)]
  | p :: rest, k, v => if p.1 = k then (k, v) :: rest else p :: dset rest k v

theorem dget_dset_same {β : Type} (d : List (String × β)) (k : String) (v : β) :
    dget (dset d k v) k = some v := by
  induction d with
  | nil => simp [dget, dset]
  | cons p rest ih =>
    by_cases h : p.1 = k
    · simp [dset, h, dget]
    · simp [dset, h, dget, ih]

theorem dget_dset_ne {β : Type} (d : List (String × β)) (k k' : String) (v : β)
    (h : k' ≠ k) : dget (dset d k v) k' = dget d k' := by
  have hk' : ¬ (k = k') := fun hh => h hh.symm
  induction d with
  | nil => simp only [dset, dget, if_neg hk']
  | cons p rest ih =>
    by_cases hp : p.1 = k
    · have hq : ¬ (p.1 = k') := by rw [hp]; exact hk'
      simp only [dset, if_pos hp, dget, if_neg hk', if_neg hq]
    · by_cases hq : p.1 = k'
      · simp only [dset, if_neg hp, dget, if_pos hq]
      · simp only [dset, if_neg hp, dget, if_neg hq, ih]

/-! ### Last index of an element in a list

Models the Python dict comprehension `{r: j for j, r in enumerate(rxn_ids)}`,
in which a duplicated id keeps its **last** enumeration index. -/

def lastIdx : List String → String → Option Nat
  | [], _ => none
  | x :: xs, r =>
    match lastIdx xs r with
    | some k => some (k + 1)
    | none => if x = r then some 0 else none

theorem lastIdx_get {l : List String} {r : String} {j : Nat}
    (h : lastIdx l r = some j) : l.get? j = some r := by
  induction l generalizing j with
  | nil => simp [lastIdx] at h
  | cons x xs ih =>
    simp only [lastIdx] at h
    cases hx : lastIdx xs r with
    | some k =>
      rw [hx] at h
      cases h
      simpa using ih hx
    | none =>
      rw [hx] at h
      by_cases hxr : x = r
      · simp [hxr] at h
        cases h
        simp [hxr]
      · simp [hxr] at h

theorem lastIdx_inj {l : List String} {a b : String} {j : Nat}
    (ha : lastIdx l a = some j) (hb : lastIdx l b = some j) : a = b := by
  have h1 := lastIdx_get ha
  have h2 := lastIdx_get hb
  rw [h1] at h2
  exact (Option.some.inj h2)

theorem lastIdx_of_nodup {l : List String} {r : String} {j : Nat}
    (hn : l.Nodup) (h : l.get? j = some r) : lastIdx l r = some j := by
  induction l generalizing j with
  | nil => simp at h
  | cons x xs ih =>
    have hx : x ∉ xs := (List.nodup_cons.mp hn).1
    have hn' : xs.Nodup := (List.nodup_cons.mp hn).2
    cases j with
    | zero =>
      have hxr : x = r := Option.some.inj (by simpa using h)
      subst hxr
      have hnone : lastIdx xs x = none := by
        cases hl : lastIdx xs x with
        | none => rfl
        | some k => exact absurd (List.get?_mem (lastIdx_get hl)) hx
      simp [lastIdx, hnone]
    | succ j' =>
      have hj : xs.get? j' = some r := by simpa using h
      have := ih hn' hj
      simp [lastIdx, this]

/-! ### Data model

`MetaNode.direction` is the `direction` field of the JSON `stoichiometry`
blob of a reaction node: `none` models a missing/unparsable blob or a blob
without a `direction` key that defaults to `"reversible"`; in the source the
reaction ends up reversible unless the parsed direction is exactly
`"irreversible"`.  `MetaEdge.stoich` is the numeric `stoich` field of the
edge's JSON `evidence` payload, default `1.0`.  The kinetic-parameter table
(`kinetic_params_for_reaction`, an external-store contract with no
implementation under the simulation sources) is a function field returning
the stored rows for a reaction. -/

structure MetaNode where
  id : String
  kind : String
  direction : Option String := none
deriving Repr, DecidableEq

structure MetaEdge where
  src : String
  rel : String
  dst : String
  stoich : Rat := 1
deriving Repr, DecidableEq

structure KineticRow where
  vmax : Option Rat := none
  km : Option Rat := none
  equilibrium_constant : Option Rat := none
  substrate_id : Option String := none
deriving Repr, DecidableEq

structure MetaStore where
  nodes : List MetaNode
  edges : List MetaEdge
  kineticRows : String → List KineticRow
  /-- Abstracts the `db:ext_id` xref shorthand and name-based fallback of
  `MetaStore.resolve_id`; consulted only when the direct node lookup misses. -/
  xref : String → Option String

def MetaStore.node (st : MetaStore) (i : String) : Option MetaNode :=
  st.nodes.find? (fun n => n.id = i)

def MetaStore.edgesOf (st : MetaStore) (i : String) : List MetaEdge :=
  st.edges.filter (fun e => e.src = i ∨ e.dst = i)

def MetaStore.resolveId (st : MetaStore) (i : String) : Option String :=
  if (st.node i).isSome then some i else st.xref i

structure SimulationConfig where
  pathway_id : Option String := none
  reaction_ids : Option (List String) := none
  t_end : Rat := 100
  t_points : Nat := 500
  initial_concentrations : List (String × Rat) := []
  default_concentration : Rat := 1
  objective_reaction : Option String := none
  maximize : Bool := true
  flux_bounds : List (String × (Rat × Rat)) := []
  vmax_overrides : List (String × Rat) := []
  vmax_factors : List (String × Rat) := []
deriving Repr, DecidableEq

structure WhatIfScenario where
  name : String
  enzyme_knockouts : List String := []
  enzyme_factors : List (String × Rat) := []
  initial_conc_overrides : List (String × Rat) := []
deriving Repr, DecidableEq

structure FBAResult where
  status : String
  objective_value : Option Rat
  fluxes : List (String × Rat)
  shadow_prices : List (String × Rat)
  message : String
deriving Repr, DecidableEq

structure ODEResult where
  status : String
  t : List Rat
  concentrations : List (String × List Rat)
  message : String
deriving Repr, DecidableEq

/-! ### Scope resolution (`_reactions_for_pathway`, `_reactions_for_enzyme`,
and the scope selection at the top of `_build_stoich_matrix`) -/

def reactionsForPathway (st : MetaStore) (pid : String) : List String :=
  match st.resolveId pid with
  | none => []
  | some p =>
    (st.edgesOf p).foldl
      (fun acc e =>
        if e.rel = "CONTAINS" ∧ e.src = p then
          match st.node e.dst with
          | some n => if n.kind = "reaction" then acc ++ [n.id] else acc
          | none => acc
        else acc) []

def reactionsForEnzyme (st : MetaStore) (eid : String) : List String :=
  match st.resolveId eid with
  | none => []
  | some enz =>
    ((st.edgesOf enz).filter (fun e => e.rel = "CATALYZES" ∧ e.src = enz)).map (·.dst)

def allReactionIds (st : MetaStore) : List String :=
  (st.nodes.filter (fun n => n.kind = "reaction")).map (·.id)

/-- Fallback scope when `config.reaction_ids` is falsy: a truthy
`config.pathway_id` scopes to the pathway, else all reaction nodes. -/
def scopeFallback (st : MetaStore) (cfg : SimulationConfig) : List String :=
  match cfg.pathway_id with
  | some p => if p = "" then allReactionIds st else reactionsForPathway st p
  | none => allReactionIds st

def scopeReactions (st : MetaStore) (cfg : SimulationConfig) : List String :=
  match cfg.reaction_ids with
  | some l => if l.isEmpty then scopeFallback st cfg else l
  | none => scopeFallback st cfg

/-! ### Stoichiometric matrix builder (`_build_stoich_matrix`) -/

/-- Models `stoich_map.setdefault(cpd, dict())[rxn] = stoich_map.get(cpd, dict()).get(rxn, 0.0) + delta`. -/
def updateCoeff (m : List (String × List (String × Rat))) (cpd rxn : String)
    (delta : Rat) : List (String × List (String × Rat)) :=
  let inner := (dget m cpd).getD []
  let old := (dget inner rxn).getD 0
  dset m cpd (dset inner rxn (old + delta))

/-- One iteration of the edge-classification loop for the reaction `rxn`:
substrate edges into `rxn` subtract their stoich from the edge source's
coefficient, product edges out of `rxn` add it to the edge target's. -/
def processEdge (rxn : String) (m : List (String × List (String × Rat)))
    (e : MetaEdge) : List (String × List (String × Rat)) :=
  if e.rel = "SUBSTRATE_OF" ∧ e.dst = rxn then
    updateCoeff m e.src rxn (-e.stoich)
  else if e.rel = "PRODUCT_OF" ∧ e.src = rxn then
    updateCoeff m e.dst rxn e.stoich
  else m

/-- One iteration of the reaction loop of `_build_stoich_matrix`: an
unresolvable reaction node is skipped (`continue`); otherwise the
reversibility flag is recorded and every incident edge folded into the
sparse coefficient map. -/
def stoichStep (st : MetaStore)
    (acc : List (String × List (String × Rat)) × List (String × Bool))
    (rxn_id : String) :
    List (String × List (String × Rat)) × List (String × Bool) :=
  match st.node rxn_id with
  | none => acc
  | some n =>
    ((st.edgesOf rxn_id).foldl (processEdge rxn_id) acc.1,
     dset acc.2 rxn_id (n.direction ≠ some "irreversible"))

/-- The accumulation loop of `_build_stoich_matrix`. -/
def buildStoichState (st : MetaStore) (rxn_ids : List String) :
    List (String × List (String × Rat)) × List (String × Bool) :=
  rxn_ids.foldl (stoichStep st) ([], [])

/-- Lexicographic string comparison on the underlying character lists (the
order Python's `sorted` uses on strings). -/
def strLe (a b : String) : Bool :=
  decide (a.data < b.data) || decide (a.data = b.data)

def insertKey (x : String) : List String → List String
  | [] => [x]
  | y :: ys => if strLe x y then x :: y :: ys else y :: insertKey x ys

def sortKeys : List String → List String
  | [] => []
  | x :: xs => insertKey x (sortKeys xs)

/-- Models `sorted(stoich_map.keys())` (insertion sort; any sort realises the
deterministic ascending order the source asks of `sorted`). -/
def sortedKeys (m : List (String × List (String × Rat))) : List String :=
  sortKeys (m.map Prod.fst)

/-- Dense-matrix entry: the materialisation loop writes each sparse entry to
column `rxn_index[rxn]`, the **last** enumeration index of the reaction id;
unwritten entries stay at the `np.zeros` initial value. -/
def Sentry (rxn_ids : List String) (m : List (String × List (String × Rat)))
    (cpd_ids : List String) (i j : Nat) : Rat :=
  match cpd_ids.get? i with
  | none => 0
  | some cpd =>
    match dget m cpd with
    | none => 0
    | some inner =>
      match inner.find? (fun p => lastIdx rxn_ids p.1 == some j) with
      | some p => p.2
      | none => 0

/-- Embeds `_build_stoich_matrix`: returns the scope, the sorted compound ids, the
sparse coefficient map (from which `Sentry` reads the dense matrix) and the
reversibility flags. -/
def buildStoichMatrix (st : MetaStore) (cfg : SimulationConfig) :
    List String × List String × List (String × List (String × Rat)) × List (String × Bool) :=
  let rxn_ids := scopeReactions st cfg
  if rxn_ids.isEmpty then ([], [], [], [])
  else
    let s := buildStoichState st rxn_ids
    (rxn_ids, sortedKeys s.1, s.1, s.2)

/-- Models `rev_flags.get(rxn_id, True)`. -/
def revGet (flags : List (String × Bool)) (r : String) : Bool :=
  (dget flags r).getD true

/-- Sparse-map coefficient with the dict defaults of the source
(`stoich_map.get(cpd, {}).get(rxn, 0.0)`). -/
def coeffAt (m : List (String × List (String × Rat))) (cpd rxn : String) : Rat :=
  (dget ((dget m cpd).getD []) rxn).getD 0

/-! ### FBA solver front end (`run_fba`)

The LP solve itself (`scipy.optimize.linprog`) is an external library; we
model it as an opaque function from the assembled problem to a result, so a
theorem quantifying over the solver states exactly what `run_fba` does
before handing over (or that it never hands over). -/

/-- Per-reaction flux bounds: explicit `config.flux_bounds` entry wins,
otherwise `(-1000, 1000)` for reversible and `(0, 1000)` for irreversible
(with `rev_flags.get(rxn_id, True)`). -/
def fbaBounds (cfg : SimulationConfig) (rxn_ids : List String)
    (flags : List (String × Bool)) : List (Rat × Rat) :=
  rxn_ids.map (fun r =>
    match dget cfg.flux_bounds r with
    | some b => b
    | none => if revGet flags r then (-1000, 1000) else (0, 1000))

/-- Default surrogate objective: weight `sign / n_rxn` on each column whose
lower bound is nonnegative, `0` elsewhere (the zero-initialised entries
untouched by the loop). -/
def fbaSurrogate (cfg : SimulationConfig) (n : Nat) (bounds : List (Rat × Rat)) :
    List Rat :=
  (List.range n).map (fun j =>
    match bounds.get? j with
    | some b => if 0 ≤ b.1 then (if cfg.maximize then (-1 : Rat) else 1) / n else 0
    | none => 0)

/-- Objective vector of `run_fba`: the `config.objective_reaction and
config.objective_reaction in rxn_ids` truthiness test selects between the
single-reaction objective (±1 at the first index of the reaction) and the
surrogate. -/
def fbaObjective (cfg : SimulationConfig) (rxn_ids : List String)
    (bounds : List (Rat × Rat)) : List Rat :=
  let n := rxn_ids.length
  match cfg.objective_reaction with
  | some r =>
    if r ≠ "" ∧ r ∈ rxn_ids then
      (List.range n).map (fun j =>
        if j = rxn_ids.indexOf r then (if cfg.maximize then (-1 : Rat) else 1) else 0)
    else fbaSurrogate cfg n bounds
  | none => fbaSurrogate cfg n bounds

/-- The LP as assembled by `run_fba` just before calling `linprog`. -/
structure LPProblem where
  c : List Rat
  rxn_ids : List String
  cpd_ids : List String
  stoich : List (String × List (String × Rat))
  bounds : List (Rat × Rat)

def runFBA (solve : LPProblem → FBAResult) (st : MetaStore)
    (cfg : SimulationConfig) : FBAResult :=
  let b := buildStoichMatrix st cfg
  let rxn_ids := b.1
  if rxn_ids.isEmpty then
    { status := "error", objective_value := none, fluxes := [],
      shadow_prices := [],
      message := "No reactions found for the given configuration." }
  else
    let bounds := fbaBounds cfg rxn_ids b.2.2.2
    solve { c := fbaObjective cfg rxn_ids bounds, rxn_ids := rxn_ids,
            cpd_ids := b.2.1, stoich := b.2.2.1, bounds := bounds }

/-- A flux vector respects the per-reaction box constraints handed to the LP
(the `bounds=` argument of `linprog`); every solution the solver can return
satisfies this. -/
def withinBounds (bounds : List (Rat × Rat)) (v : List Rat) : Prop :=
  v.length = bounds.length ∧
  ∀ j b x, bounds.get? j = some b → v.get? j = some x → b.1 ≤ x ∧ x ≤ b.2

/-! ### Kinetic parameter resolution (`_build_kinetic_params`) -/

def DEFAULT_VMAX : Rat := 1
def DEFAULT_KM : Rat := 1/2
def DEFAULT_KEQ : Rat := 1

/-- Python's falsy-coalescing `x or default`: both `None` **and** `0.0` fall
back to the default. -/
def orDefault (x : Option Rat) (d : Rat) : Rat :=
  match x with
  | none => d
  | some v => if v = 0 then d else v

def meanOpt (l : List Rat) : Option Rat :=
  if l.isEmpty then none else some (l.sum / l.length)

structure KParams where
  vmax : Option Rat := none
  km : Option Rat := none
  equilibrium_constant : Option Rat := none
  km_by_substrate : List (String × Rat) := []
deriving Repr, DecidableEq

/-- Per-reaction parameter record from the stored rows: averages of the
present values, a per-substrate Km map from rows with a truthy
`substrate_id`, and the process-wide defaults when no rows exist. -/
def paramsFromRows (rows : List KineticRow) : KParams :=
  if rows.isEmpty then
    { vmax := some DEFAULT_VMAX, km := some DEFAULT_KM,
      equilibrium_constant := some DEFAULT_KEQ, km_by_substrate := [] }
  else
    { vmax := meanOpt (rows.filterMap (·.vmax)),
      km := meanOpt (rows.filterMap (·.km)),
      equilibrium_constant := meanOpt (rows.filterMap (·.equilibrium_constant)),
      km_by_substrate := rows.foldl
        (fun acc r =>
          match r.substrate_id, r.km with
          | some s, some k => if s ≠ "" then dset acc s k else acc
          | _, _ => acc) [] }

/-- The per-reaction base record built by `_build_kinetic_params` before the
config overrides. -/
def kparamStep (st : MetaStore) (acc : List (String × KParams)) (r : String) :
    List (String × KParams) :=
  dset acc r (paramsFromRows (st.kineticRows r))

/-- Embeds `_build_kinetic_params`: stored rows per reaction, then absolute
`vmax_overrides` (replacement), then `vmax_factors` (multiplying the current
falsy-coalesced Vmax). -/
def buildKineticParams (st : MetaStore) (rxn_ids : List String)
    (cfg : SimulationConfig) : List (String × KParams) :=
  let base := rxn_ids.foldl (kparamStep st) []
  let withOv := cfg.vmax_overrides.foldl
    (fun acc p =>
      match dget acc p.1 with
      | some kp => dset acc p.1 { kp with vmax := some p.2 }
      | none => acc) base
  cfg.vmax_factors.foldl
    (fun acc p =>
      match dget acc p.1 with
      | some kp => dset acc p.1 { kp with vmax := some (orDefault kp.vmax DEFAULT_VMAX * p.2) }
      | none => acc) withOv

/-! ### ODE right-hand side (`run_ode` reaction specs and `_mm_rate`) -/

/-- The literal `1e-10`, the sparsity threshold for substrate/product extraction. -/
def EPS10 : Rat := 1 / 10000000000

/-- The literal `1e-12`, the lower clamp on the equilibrium constant in `_mm_rate`. -/
def EPS12 : Rat := 1 / 1000000000000

structure RxnSpec where
  substrates : List (Nat × Rat)
  products : List (Nat × Rat)
  vmax : Rat
  km_default : Rat
  km_by_sub : List (String × Rat)
  reversible : Bool
  keq : Rat
deriving Repr, DecidableEq

/-- One entry of the `rxn_specs` pre-build loop of `run_ode`: substrate and
product index/coefficient lists read off the matrix column, and the
falsy-coalesced kinetic constants. -/
def mkRxnSpec (rxn_ids cpd_ids : List String)
    (m : List (String × List (String × Rat))) (kparams : List (String × KParams))
    (flags : List (String × Bool)) (j : Nat) (rxn_id : String) : RxnSpec :=
  let n := cpd_ids.length
  let kp := (dget kparams rxn_id).getD {}
  { substrates := (List.range n).filterMap (fun i =>
      let s := Sentry rxn_ids m cpd_ids i j
      if s < -EPS10 then some (i, -s) else none),
    products := (List.range n).filterMap (fun i =>
      let s := Sentry rxn_ids m cpd_ids i j
      if EPS10 < s then some (i, s) else none),
    vmax := orDefault kp.vmax DEFAULT_VMAX,
    km_default := orDefault kp.km DEFAULT_KM,
    km_by_sub := kp.km_by_substrate,
    reversible := revGet flags rxn_id,
    keq := orDefault kp.equilibrium_constant DEFAULT_KEQ }

def buildRxnSpecs (rxn_ids cpd_ids : List String)
    (m : List (String × List (String × Rat))) (kparams : List (String × KParams))
    (flags : List (String × Bool)) : List RxnSpec :=
  rxn_ids.enum.map (fun p => mkRxnSpec rxn_ids cpd_ids m kparams flags p.1 p.2)

/-- Models `km_by_sub.get(cpd_ids[idx], km_default)`. -/
def kmEff (spec : RxnSpec) (cpd_ids : List String) (idx : Nat) : Rat :=
  (dget spec.km_by_sub (cpd_ids.getD idx "")).getD spec.km_default

/-- One Michaelis-Menten factor with the zero-denominator guard of the
source (`conc / denom if denom > 0 else 0.0`). -/
def mmFactor (conc km : Rat) : Rat :=
  if 0 < km + conc then conc / (km + conc) else 0

/-- The forward-rate accumulation loop (`v_fwd`). -/
def forwardRate (spec : RxnSpec) (y : Nat → Rat) (cpd_ids : List String) : Rat :=
  spec.substrates.foldl
    (fun v p => v * mmFactor (y p.1) (kmEff spec cpd_ids p.1)) spec.vmax

/-- Embeds `_mm_rate`: zero without substrates; `max(0, v_fwd)` when irreversible;
forward alone when reversible without products; otherwise forward minus the
Haldane reverse rate (reverse Vmax `vmax / keq` with `keq` clamped below at
`1e-12`, per-product Km scaled by `keq`). -/
def mmRate (spec : RxnSpec) (y : Nat → Rat) (cpd_ids : List String) : Rat :=
  if spec.substrates.isEmpty then 0
  else
    let v_fwd := forwardRate spec y cpd_ids
    if ¬ spec.reversible then max 0 v_fwd
    else if spec.products.isEmpty then v_fwd
    else
      let keq := max spec.keq EPS12
      let v_rev := spec.products.foldl
        (fun v p => v * mmFactor (y p.1) (kmEff spec cpd_ids p.1 * keq))
        (spec.vmax / keq)
      v_fwd - v_rev

/-- The keyword arguments `run_ode` passes to `scipy.integrate.solve_ivp`:
hard-coded `method="RK45"`, `rtol=1e-4`, `atol=1e-6`, and
`max_step = config.t_end / 50`. -/
structure OdeSolverCall where
  method : String
  rtol : Rat
  atol : Rat
  max_step : Option Rat
deriving Repr, DecidableEq

def odeSolverCall (cfg : SimulationConfig) : OdeSolverCall :=
  { method := "RK45", rtol := 1 / 10000, atol := 1 / 1000000,
    max_step := some (cfg.t_end / 50) }

/-- Embeds `run_ode` up to the integrator hand-off; the integrator itself
(`solve_ivp` plus the result post-processing) is an opaque parameter
receiving the solver keywords, the initial state and the reaction specs. -/
def runODE
    (integrate : OdeSolverCall → (Nat → Rat) → List String → List RxnSpec → ODEResult)
    (st : MetaStore) (cfg : SimulationConfig) : ODEResult :=
  let b := buildStoichMatrix st cfg
  let rxn_ids := b.1
  if rxn_ids.isEmpty then
    { status := "error", t := [], concentrations := [],
      message := "No reactions found for the given configuration." }
  else
    let cpd_ids := b.2.1
    let kparams := buildKineticParams st rxn_ids cfg
    let specs := buildRxnSpecs rxn_ids cpd_ids b.2.2.1 kparams b.2.2.2
    let y0 := fun i =>
      (dget cfg.initial_concentrations (cpd_ids.getD i "")).getD
        cfg.default_concentration
    integrate (odeSolverCall cfg) y0 cpd_ids specs

/-! ### What-If engine (`_apply_scenario`, `run_whatif`) -/

/-- Embeds `_apply_scenario` on config **values** (the aliasing discipline of the
`copy.deepcopy` is modelled separately on an explicit heap): knockouts force
bounds `(0,0)` / Vmax override `0`, factors scale the upper bound / compound
the Vmax factor, concentration overrides are written through. -/
def applyScenario (st : MetaStore) (cfg : SimulationConfig)
    (sc : WhatIfScenario) (mode : String) : SimulationConfig :=
  let cfg1 := sc.enzyme_knockouts.foldl
    (fun c enz =>
      (reactionsForEnzyme st enz).foldl
        (fun c r =>
          if mode = "fba" then
            { c with flux_bounds := dset c.flux_bounds r (0, 0) }
          else
            { c with vmax_overrides := dset c.vmax_overrides r 0 }) c) cfg
  let cfg2 := sc.enzyme_factors.foldl
    (fun c p =>
      (reactionsForEnzyme st p.1).foldl
        (fun c r =>
          if mode = "fba" then
            let b := (dget c.flux_bounds r).getD (0, 1000)
            { c with flux_bounds := dset c.flux_bounds r (b.1, b.2 * p.2) }
          else
            let newv := dset c.vmax_factors r (((dget c.vmax_factors r).getD 1) * p.2)
            { c with vmax_factors := newv }) c) cfg1
  sc.initial_conc_overrides.foldl
    (fun c p =>
      { c with initial_concentrations := dset c.initial_concentrations p.1 p.2 }) cfg2

structure WhatIfFBAOut where
  scenario_name : String
  baseline : FBAResult
  perturbed : FBAResult
  delta_fluxes : List (String × Rat)
deriving Repr, DecidableEq

structure WhatIfODEOut where
  scenario_name : String
  baseline : ODEResult
  perturbed : ODEResult
  delta_final_conc : List (String × Rat)
deriving Repr, DecidableEq

/-- Embeds `run_whatif` in FBA mode, generic over the (deterministic) runner. -/
def runWhatifFBA (runF : SimulationConfig → FBAResult) (st : MetaStore)
    (cfg : SimulationConfig) (sc : WhatIfScenario) : WhatIfFBAOut :=
  let baseline := runF cfg
  let perturbed := runF (applyScenario st cfg sc "fba")
  let keys := (baseline.fluxes.map Prod.fst ++ perturbed.fluxes.map Prod.fst).dedup
  { scenario_name := sc.name, baseline := baseline, perturbed := perturbed,
    delta_fluxes := keys.map (fun k =>
      (k, (dget perturbed.fluxes k).getD 0 - (dget baseline.fluxes k).getD 0)) }

/-- Models `baseline.concentrations.get(cpd_id, [0.0])[-1]`. -/
def finalConc (concs : List (String × List Rat)) (k : String) : Rat :=
  ((dget concs k).getD [0]).getLastD 0

/-- Embeds `run_whatif` in ODE mode, generic over the (deterministic) runner. -/
def runWhatifODE (runO : SimulationConfig → ODEResult) (st : MetaStore)
    (cfg : SimulationConfig) (sc : WhatIfScenario) : WhatIfODEOut :=
  let baseline := runO cfg
  let perturbed := runO (applyScenario st cfg sc "ode")
  let keys := (baseline.concentrations.map Prod.fst ++
    perturbed.concentrations.map Prod.fst).dedup
  { scenario_name := sc.name, baseline := baseline, perturbed := perturbed,
    delta_final_conc := keys.map (fun k =>
      (k, finalConc perturbed.concentrations k - finalConc baseline.concentrations k)) }

/-! ### Aliasing model of `_apply_scenario` for the deep-copy discipline

Python dicts are mutable heap objects; `copy.deepcopy(config)` allocates
fresh containers and every scenario write goes through the fresh addresses.
We model the four mutable containers of a `SimulationConfig` as addresses
into an explicit heap with a bump allocator, and `_apply_scenario` as the
heap transformer the source performs. -/

structure Heap where
  fb : Nat → List (String × (Rat × Rat))
  vo : Nat → List (String × Rat)
  vf : Nat → List (String × Rat)
  ic : Nat → List (String × Rat)
  next : Nat

/-- The addresses of the four mutable containers of a config. -/
structure ConfigRefs where
  fbRef : Nat
  voRef : Nat
  vfRef : Nat
  icRef : Nat
deriving Repr, DecidableEq

/-- All containers of the config were allocated by the heap's allocator. -/
def ConfigRefs.Valid (c : ConfigRefs) (h : Heap) : Prop :=
  c.fbRef < h.next ∧ c.voRef < h.next ∧ c.vfRef < h.next ∧ c.icRef < h.next

/-- Models `copy.deepcopy(config)`: four fresh addresses holding copies of the
originals' contents. -/
def deepcopyConfig (h : Heap) (c : ConfigRefs) : Heap × ConfigRefs :=
  ({ fb := fun n => if n = h.next then h.fb c.fbRef else h.fb n,
     vo := fun n => if n = h.next + 1 then h.vo c.voRef else h.vo n,
     vf := fun n => if n = h.next + 2 then h.vf c.vfRef else h.vf n,
     ic := fun n => if n = h.next + 3 then h.ic c.icRef else h.ic n,
     next := h.next + 4 },
   { fbRef := h.next, voRef := h.next + 1, vfRef := h.next + 2, icRef := h.next + 3 })

def writeFB (h : Heap) (a : Nat) (k : String) (v : Rat × Rat) : Heap :=
  { h with fb := fun n => if n = a then dset (h.fb n) k v else h.fb n }

def writeVO (h : Heap) (a : Nat) (k : String) (v : Rat) : Heap :=
  { h with vo := fun n => if n = a then dset (h.vo n) k v else h.vo n }

def writeVF (h : Heap) (a : Nat) (k : String) (v : Rat) : Heap :=
  { h with vf := fun n => if n = a then dset (h.vf n) k v else h.vf n }

def writeIC (h : Heap) (a : Nat) (k : String) (v : Rat) : Heap :=
  { h with ic := fun n => if n = a then dset (h.ic n) k v else h.ic n }

/-- Embeds `_apply_scenario` as a heap transformer: deep-copy, then all scenario
writes go through the fresh addresses of the copy. -/
def applyScenarioHeap (st : MetaStore) (h : Heap) (c : ConfigRefs)
    (sc : WhatIfScenario) (mode : String) : Heap × ConfigRefs :=
  let d := deepcopyConfig h c
  let c' := d.2
  let h1 := sc.enzyme_knockouts.foldl
    (fun hh enz =>
      (reactionsForEnzyme st enz).foldl
        (fun hh r =>
          if mode = "fba" then writeFB hh c'.fbRef r (0, 0)
          else writeVO hh c'.voRef r 0) hh) d.1
  let h2 := sc.enzyme_factors.foldl
    (fun hh p =>
      (reactionsForEnzyme st p.1).foldl
        (fun hh r =>
          if mode = "fba" then
            let b := (dget (hh.fb c'.fbRef) r).getD (0, 1000)
            writeFB hh c'.fbRef r (b.1, b.2 * p.2)
          else
            writeVF hh c'.vfRef r (((dget (hh.vf c'.vfRef) r).getD 1) * p.2)) hh) h1
  let h3 := sc.initial_conc_overrides.foldl
    (fun hh p => writeIC hh c'.icRef p.1 p.2) h2
  (h3, c')

/-! ### Specification-side reference definitions (for refinement claims)

These two families follow the **specification's wording**, to be compared
with the definitions embedded from the source. -/

/-- Net signed contribution of one edge of reaction `r` to compound `c`,
as the spec words it: substrate edges subtract their stoichiometry, product
edges add it. -/
def edgeContrib (r c : String) (e : MetaEdge) : Rat :=
  if e.rel = "SUBSTRATE_OF" ∧ e.dst = r ∧ e.src = c then -e.stoich
  else if e.rel = "PRODUCT_OF" ∧ e.src = r ∧ e.dst = c then e.stoich
  else 0

/-- Spec-side net coefficient of compound `c` in reaction `r`: accumulation
over all of `r`'s incident substrate/product edges. -/
def netCoeff (st : MetaStore) (r c : String) : Rat :=
  ((st.edgesOf r).map (edgeContrib r c)).sum

/-- Forward rate exactly as the specification words it:
`Vmax × Π over substrates of conc / (Km_effective + conc)`. -/
def claimedForward (spec : RxnSpec) (y : Nat → Rat) (cpd_ids : List String) : Rat :=
  spec.vmax *
    (spec.substrates.map (fun p => y p.1 / (kmEff spec cpd_ids p.1 + y p.1))).prod

/-- The full rate law exactly as the specification (and claim C2) words it:
`max(0, forward)` when irreversible; forward alone when reversible without
products; otherwise `forward − reverse` with reverse Vmax `Vmax / Keq` and
per-product Km scaled by `Keq`. -/
def claimedRate (spec : RxnSpec) (y : Nat → Rat) (cpd_ids : List String) : Rat :=
  if ¬ spec.reversible then max 0 (claimedForward spec y cpd_ids)
  else if spec.products.isEmpty then claimedForward spec y cpd_ids
  else
    claimedForward spec y cpd_ids -
      spec.vmax / spec.keq *
        (spec.products.map
          (fun p => y p.1 / (kmEff spec cpd_ids p.1 * spec.keq + y p.1))).prod

/-! ### Supporting lemmas -/

theorem foldl_preserve {α β : Type} (P : α → Prop) (f : α → β → α)
    (l : List β) (a : α) (ha : P a) (hf : ∀ x b, P x → P (f x b)) :
    P (l.foldl f a) := by
  induction l generalizing a with
  | nil => exact ha
  | cons b bs ih => exact ih (f a b) (hf a b ha)

theorem foldl_mul_eq_prod (f : (Nat × Rat) → Rat) (l : List (Nat × Rat)) (a : Rat) :
    l.foldl (fun v p => v * f p) a = a * (l.map f).prod := by
  induction l generalizing a with
  | nil => simp
  | cons p ps ih =>
    simp only [List.foldl, List.map, List.prod_cons]
    rw [ih, mul_assoc]

theorem coeffAt_updateCoeff (m : List (String × List (String × Rat)))
    (cpd rxn c r : String) (d : Rat) :
    coeffAt (updateCoeff m cpd rxn d) c r =
      coeffAt m c r + (if c = cpd ∧ r = rxn then d else 0) := by
  unfold coeffAt updateCoeff
  by_cases hc : c = cpd
  · subst hc
    rw [dget_dset_same]
    simp only [Option.getD_some]
    by_cases hr : r = rxn
    · subst hr
      rw [dget_dset_same]
      simp
    · rw [dget_dset_ne _ _ _ _ hr]
      simp [hr]
  · rw [dget_dset_ne _ _ _ _ hc]
    simp [hc]

theorem coeffAt_processEdge (rxn : String) (m : List (String × List (String × Rat)))
    (e : MetaEdge) (c r : String) :
    coeffAt (processEdge rxn m e) c r =
      coeffAt m c r + (if rxn = r then edgeContrib r c e else 0) := by
  unfold processEdge edgeContrib
  by_cases h1 : e.rel = "SUBSTRATE_OF" ∧ e.dst = rxn
  · rw [if_pos h1, coeffAt_updateCoeff]
    by_cases hr : rxn = r
    · subst hr
      by_cases hc : c = e.src
      · simp [h1.1, h1.2, hc]
      · have hR : ¬ (e.rel = "SUBSTRATE_OF" ∧ e.dst = rxn ∧ e.src = c) :=
          fun hh => hc hh.2.2.symm
        simp [h1.1, h1.2, hc, hR]
        exact fun hh => absurd hh.symm hc
    · have : ¬ (c = e.src ∧ r = rxn) := fun hh => hr hh.2.symm
      rw [if_neg this, if_neg hr]
  · rw [if_neg h1]
    by_cases h2 : e.rel = "PRODUCT_OF" ∧ e.src = rxn
    · rw [if_pos h2, coeffAt_updateCoeff]
      by_cases hr : rxn = r
      · subst hr
        have hns : ¬ (e.rel = "SUBSTRATE_OF" ∧ e.dst = rxn ∧ e.src = c) := by
          intro hh
          exact h1 ⟨hh.1, hh.2.1⟩
        by_cases hc : c = e.dst
        · simp [h2.1, h2.2, hc, hns]
        · have hP : ¬ (e.rel = "PRODUCT_OF" ∧ e.src = rxn ∧ e.dst = c) :=
            fun hh => hc hh.2.2.symm
          simp [h2.1, h2.2, hc, hns, hP]
          exact fun hh => absurd hh.symm hc
      · have : ¬ (c = e.dst ∧ r = rxn) := fun hh => hr hh.2.symm
        rw [if_neg this, if_neg hr]
    · rw [if_neg h2]
      by_cases hr : rxn = r
      · subst hr
        have hns : ¬ (e.rel = "SUBSTRATE_OF" ∧ e.dst = rxn ∧ e.src = c) := by
          intro hh
          exact h1 ⟨hh.1, hh.2.1⟩
        have hnp : ¬ (e.rel = "PRODUCT_OF" ∧ e.src = rxn ∧ e.dst = c) := by
          intro hh
          exact h2 ⟨hh.1, hh.2.1⟩
        simp [hns, hnp]
      · simp [hr]

theorem coeffAt_foldEdges (rxn : String) (es : List MetaEdge)
    (m : List (String × List (String × Rat))) (c r : String) :
    coeffAt (es.foldl (processEdge rxn) m) c r =
      coeffAt m c r + (if rxn = r then (es.map (edgeContrib r c)).sum else 0) := by
  induction es generalizing m with
  | nil => simp
  | cons e es' ih =>
    simp only [List.foldl, List.map, List.sum_cons]
    rw [ih, coeffAt_processEdge]
    by_cases hr : rxn = r
    · simp [hr, add_assoc]
    · simp [hr]

theorem coeffAt_stoichFold (st : MetaStore) (l : List String)
    (acc : List (String × List (String × Rat)) × List (String × Bool))
    (c r : String) (hn : l.Nodup) :
    coeffAt ((l.foldl (stoichStep st) acc).1) c r =
      coeffAt acc.1 c r +
        (if r ∈ l ∧ (st.node r).isSome then netCoeff st r c else 0) := by
  induction l generalizing acc with
  | nil => simp
  | cons x l' ih =>
    have hx : x ∉ l' := (List.nodup_cons.mp hn).1
    have hn' : l'.Nodup := (List.nodup_cons.mp hn).2
    simp only [List.foldl]
    rw [ih _ hn']
    have hstep : coeffAt (stoichStep st acc x).1 c r =
        coeffAt acc.1 c r +
          (if x = r ∧ (st.node x).isSome then netCoeff st r c else 0) := by
      unfold stoichStep
      cases hnode : st.node x with
      | none => simp [hnode]
      | some n =>
        simp only [hnode]
        rw [coeffAt_foldEdges]
        by_cases hxr : x = r
        · subst hxr
          simp [netCoeff]
        · simp [hxr]
    rw [hstep]
    by_cases hxr : x = r
    · subst hxr
      have hnl : x ∉ l' := hx
      cases hnode : st.node x with
      | none => simp [hnode, hnl]
      | some n => simp [hnode, hnl, add_assoc]
    · have hmem : (r ∈ x :: l') = (r ∈ l') := by
        simp only [List.mem_cons, eq_iff_iff]
        constructor
        · intro hh
          rcases hh with hh | hh
          · exact absurd hh.symm hxr
          · exact hh
        · exact Or.inr
      simp only [hxr, false_and, if_false, add_zero, hmem]

theorem dget_stoichFlags_not_mem (st : MetaStore) (l : List String)
    (acc : List (String × List (String × Rat)) × List (String × Bool))
    (r : String) (hr : r ∉ l) :
    dget ((l.foldl (stoichStep st) acc).2) r = dget acc.2 r := by
  induction l generalizing acc with
  | nil => rfl
  | cons x l' ih =>
    have hxr : x ≠ r := fun hh => hr (hh ▸ List.mem_cons_self x l')
    have hr' : r ∉ l' := fun hh => hr (List.mem_cons_of_mem x hh)
    simp only [List.foldl]
    rw [ih _ hr']
    unfold stoichStep
    cases hnode : st.node x with
    | none => rfl
    | some n =>
      simp only
      exact dget_dset_ne _ _ _ _ (fun hh => hxr hh.symm)

theorem dget_stoichFlags_mem (st : MetaStore) (l : List String)
    (acc : List (String × List (String × Rat)) × List (String × Bool))
    (r : String) (n : MetaNode) (hnode : st.node r = some n) (hr : r ∈ l) :
    dget ((l.foldl (stoichStep st) acc).2) r =
      some (decide (n.direction ≠ some "irreversible")) := by
  induction l generalizing acc with
  | nil => simp at hr
  | cons x l' ih =>
    simp only [List.foldl]
    by_cases hmem : r ∈ l'
    · exact ih _ hmem
    · have hxr : x = r := by
        rcases List.mem_cons.mp hr with h | h
        · exact h.symm
        · exact absurd h hmem
      subst hxr
      rw [dget_stoichFlags_not_mem st l' _ x hmem]
      unfold stoichStep
      rw [hnode]
      simp only
      exact dget_dset_same _ _ _

theorem dget_stoichFlags_no_node (st : MetaStore) (l : List String)
    (acc : List (String × List (String × Rat)) × List (String × Bool))
    (r : String) (hnode : st.node r = none) :
    dget ((l.foldl (stoichStep st) acc).2) r = dget acc.2 r := by
  induction l generalizing acc with
  | nil => rfl
  | cons x l' ih =>
    simp only [List.foldl]
    rw [ih]
    unfold stoichStep
    cases hx : st.node x with
    | none => rfl
    | some n =>
      simp only
      have hxr : ¬ (x = r) := by
        intro hh
        rw [hh, hnode] at hx
        cases hx
      exact dget_dset_ne _ _ _ _ (fun hh => hxr hh.symm)

theorem dget_kparamFold_not_mem (st : MetaStore) (l : List String)
    (acc : List (String × KParams)) (r : String) (hr : r ∉ l) :
    dget (l.foldl (kparamStep st) acc) r = dget acc r := by
  induction l generalizing acc with
  | nil => rfl
  | cons x l' ih =>
    have hxr : x ≠ r := fun hh => hr (hh ▸ List.mem_cons_self x l')
    have hr' : r ∉ l' := fun hh => hr (List.mem_cons_of_mem x hh)
    simp only [List.foldl]
    rw [ih _ hr']
    exact dget_dset_ne _ _ _ _ (fun hh => hxr hh.symm)

theorem dget_kparamFold_mem (st : MetaStore) (l : List String)
    (acc : List (String × KParams)) (r : String) (hr : r ∈ l) :
    dget (l.foldl (kparamStep st) acc) r =
      some (paramsFromRows (st.kineticRows r)) := by
  induction l generalizing acc with
  | nil => simp at hr
  | cons x l' ih =>
    simp only [List.foldl]
    by_cases hmem : r ∈ l'
    · exact ih _ hmem
    · have hxr : x = r := by
        rcases List.mem_cons.mp hr with h | h
        · exact h.symm
        · exact absurd h hmem
      subst hxr
      rw [dget_kparamFold_not_mem st l' _ x hmem]
      exact dget_dset_same _ _ _

theorem find_lastIdx_eq_dget (rxn_ids : List String) (j : Nat) (r : String)
    (hj : lastIdx rxn_ids r = some j) (inner : List (String × Rat)) :
    (match inner.find? (fun p => lastIdx rxn_ids p.1 == some j) with
     | some p => p.2
     | none => 0) = (dget inner r).getD 0 := by
  induction inner with
  | nil => rfl
  | cons q qs ih =>
    by_cases hq : q.1 = r
    · have hb : (lastIdx rxn_ids q.1 == some j) = true := by
        rw [hq, hj]
        simp
      rw [@List.find?_cons_of_pos _ (fun s => lastIdx rxn_ids s.1 == some j) q qs hb]
      simp [dget, hq]
    · have hb : (lastIdx rxn_ids q.1 == some j) = false := by
        apply beq_eq_false_iff_ne.mpr
        intro hh
        exact hq (lastIdx_inj hh hj)
      rw [List.find?_cons_of_neg _ (by simp [hb])]
      simp only [dget, if_neg hq]
      exact ih

theorem Sentry_eq_coeffAt (rxn_ids : List String)
    (m : List (String × List (String × Rat))) (cpd_ids : List String)
    (i j : Nat) (c r : String) (hc : cpd_ids.get? i = some c)
    (hj : lastIdx rxn_ids r = some j) :
    Sentry rxn_ids m cpd_ids i j = coeffAt m c r := by
  unfold Sentry coeffAt
  simp only [hc]
  cases hm : dget m c with
  | none => simp [hm, dget]
  | some inner =>
    simp only [hm, Option.getD_some]
    exact find_lastIdx_eq_dget rxn_ids j r hj inner

theorem buildStoichMatrix_eq (st : MetaStore) (cfg : SimulationConfig) :
    buildStoichMatrix st cfg =
      if (scopeReactions st cfg).isEmpty then ([], [], [], [])
      else (scopeReactions st cfg,
            sortedKeys (buildStoichState st (scopeReactions st cfg)).1,
            (buildStoichState st (scopeReactions st cfg)).1,
            (buildStoichState st (scopeReactions st cfg)).2) := rfl

/-! ### Concrete fixtures (used by witnesses and counterexamples) -/

/-- A one-reaction store `A → 2B` (no direction metadata, hence reversible
by default), with an enzyme `E` catalysing the reaction. -/
def stA2B : MetaStore :=
  { nodes := [{ id := "rxn:R", kind := "reaction" },
              { id := "enz:E", kind := "enzyme" }],
    edges := [{ src := "cpd:A", rel := "SUBSTRATE_OF", dst := "rxn:R" },
              { src := "rxn:R", rel := "PRODUCT_OF", dst := "cpd:B", stoich := 2 },
              { src := "enz:E", rel := "CATALYZES", dst := "rxn:R" }],
    kineticRows := fun _ => [],
    xref := fun _ => none }

def cfgR : SimulationConfig := { reaction_ids := some ["rxn:R"] }

/-- Claim C3 — for every reaction in scope (no duplicate scope entries, node
resolvable), the stoichiometric matrix column holds exactly the net signed
compound coefficients accumulated from that reaction's substrate/product
edges, and `0` in every other row of the column. -/
theorem c3_stoich_column_matches_edges (st : MetaStore) (cfg : SimulationConfig)
    (i j : Nat) (r c : String)
    (hnd : (buildStoichMatrix st cfg).1.Nodup)
    (hr : (buildStoichMatrix st cfg).1.get? j = some r)
    (hn : (st.node r).isSome)
    (hc : (buildStoichMatrix st cfg).2.1.get? i = some c) :
    Sentry (buildStoichMatrix st cfg).1 (buildStoichMatrix st cfg).2.2.1
      (buildStoichMatrix st cfg).2.1 i j = netCoeff st r c := by
  rw [buildStoichMatrix_eq] at hnd hr hc ⊢
  by_cases hemp : (scopeReactions st cfg).isEmpty
  · rw [if_pos hemp] at hr
    simp at hr
  · rw [if_neg hemp] at hnd hr hc ⊢
    simp only at hnd hr hc ⊢
    have hrl : r ∈ scopeReactions st cfg := List.get?_mem hr
    have hj : lastIdx (scopeReactions st cfg) r = some j := lastIdx_of_nodup hnd hr
    rw [Sentry_eq_coeffAt _ _ _ i j c r hc hj]
    unfold buildStoichState
    rw [coeffAt_stoichFold st _ ([], []) c r hnd]
    rw [if_pos ⟨hrl, hn⟩]
    simp [coeffAt, dget]

/-- Witness for C3: in the fixture `A → 2B`, row `cpd:A` of the reaction's
column is `-1`, row `cpd:B` is `2`. -/
theorem c3_stoich_column_matches_edges_witness :
    ((buildStoichMatrix stA2B cfgR).1.Nodup ∧
      (buildStoichMatrix stA2B cfgR).1.get? 0 = some "rxn:R" ∧
      (stA2B.node "rxn:R").isSome ∧
      (buildStoichMatrix stA2B cfgR).2.1.get? 0 = some "cpd:A" ∧
      (buildStoichMatrix stA2B cfgR).2.1.get? 1 = some "cpd:B") ∧
    Sentry (buildStoichMatrix stA2B cfgR).1 (buildStoichMatrix stA2B cfgR).2.2.1
      (buildStoichMatrix stA2B cfgR).2.1 0 0 = netCoeff stA2B "rxn:R" "cpd:A" ∧
    Sentry (buildStoichMatrix stA2B cfgR).1 (buildStoichMatrix stA2B cfgR).2.2.1
      (buildStoichMatrix stA2B cfgR).2.1 1 0 = netCoeff stA2B "rxn:R" "cpd:B" ∧
    netCoeff stA2B "rxn:R" "cpd:A" = -1 ∧
    netCoeff stA2B "rxn:R" "cpd:B" = 2 := by
  refine ⟨⟨by decide, by decide, by decide, by decide, by decide⟩, ?_, ?_,
    by simp [netCoeff, MetaStore.edgesOf, stA2B, edgeContrib],
    by simp [netCoeff, MetaStore.edgesOf, stA2B, edgeContrib]⟩
  · exact c3_stoich_column_matches_edges stA2B cfgR 0 0 "rxn:R" "cpd:A"
      (by decide) (by decide) (by decide) (by decide)
  · exact c3_stoich_column_matches_edges stA2B cfgR 1 0 "rxn:R" "cpd:B"
      (by decide) (by decide) (by decide) (by decide)

/-- Claim C4 — FBA bounds selection: the explicit `config.flux_bounds` entry
wins; otherwise reversible reactions get `(-1000, 1000)` and irreversible
ones `(0, 1000)`; a reaction is reversible by default unless its stored
metadata direction is exactly `"irreversible"` (an unresolvable node keeps
the default). -/
theorem c4_fba_bound_selection (st : MetaStore) (cfg : SimulationConfig)
    (j : Nat) (r : String)
    (hr : (buildStoichMatrix st cfg).1.get? j = some r) :
    (fbaBounds cfg (buildStoichMatrix st cfg).1 (buildStoichMatrix st cfg).2.2.2).get? j =
      some (match dget cfg.flux_bounds r with
            | some b => b
            | none =>
              if revGet (buildStoichMatrix st cfg).2.2.2 r then (-1000, 1000)
              else (0, 1000)) ∧
    (∀ n, st.node r = some n →
      (revGet (buildStoichMatrix st cfg).2.2.2 r = true ↔
        n.direction ≠ some "irreversible")) ∧
    (st.node r = none → revGet (buildStoichMatrix st cfg).2.2.2 r = true) := by
  refine ⟨?_, ?_, ?_⟩
  · unfold fbaBounds
    rw [List.get?_map, hr]
    rfl
  · intro n hn
    rw [buildStoichMatrix_eq] at hr ⊢
    by_cases hemp : (scopeReactions st cfg).isEmpty
    · rw [if_pos hemp] at hr
      simp at hr
    · rw [if_neg hemp] at hr ⊢
      simp only at hr ⊢
      have hmem : r ∈ scopeReactions st cfg := List.get?_mem hr
      unfold revGet buildStoichState
      rw [dget_stoichFlags_mem st _ ([], []) r n hn hmem]
      simp
  · intro hn
    rw [buildStoichMatrix_eq] at hr ⊢
    by_cases hemp : (scopeReactions st cfg).isEmpty
    · rw [if_pos hemp] at hr
      simp at hr
    · rw [if_neg hemp] at hr ⊢
      simp only at hr ⊢
      unfold revGet buildStoichState
      rw [dget_stoichFlags_no_node st _ ([], []) r hn]
      rfl

/-- Fixture for C4/C5: one irreversible and one default-reversible reaction,
with an explicit bound override on the latter. -/
def stC4 : MetaStore :=
  { nodes := [{ id := "rxn:I", kind := "reaction", direction := some "irreversible" },
              { id := "rxn:V", kind := "reaction" }],
    edges := [],
    kineticRows := fun _ => [],
    xref := fun _ => none }

def cfgC4 : SimulationConfig :=
  { reaction_ids := some ["rxn:I", "rxn:V"],
    flux_bounds := [("rxn:V", (-5, 5))] }

/-- Witness for C4: the irreversible reaction gets `(0, 1000)`, the
overridden one its explicit `(-5, 5)`. -/
theorem c4_fba_bound_selection_witness :
    ((buildStoichMatrix stC4 cfgC4).1.get? 0 = some "rxn:I" ∧
      (buildStoichMatrix stC4 cfgC4).1.get? 1 = some "rxn:V" ∧
      stC4.node "rxn:I" =
        some { id := "rxn:I", kind := "reaction", direction := some "irreversible" }) ∧
    (fbaBounds cfgC4 (buildStoichMatrix stC4 cfgC4).1
        (buildStoichMatrix stC4 cfgC4).2.2.2).get? 0 = some (0, 1000) ∧
    (fbaBounds cfgC4 (buildStoichMatrix stC4 cfgC4).1
        (buildStoichMatrix stC4 cfgC4).2.2.2).get? 1 = some (-5, 5) ∧
    ¬ (revGet (buildStoichMatrix stC4 cfgC4).2.2.2 "rxn:I" = true) := by
  refine ⟨⟨by decide, by decide, by decide⟩, ?_, ?_, by decide⟩
  · exact (c4_fba_bound_selection stC4 cfgC4 0 "rxn:I" (by decide)).1
  · exact (c4_fba_bound_selection stC4 cfgC4 1 "rxn:V" (by decide)).1

/-- Claim C5 — the FBA objective vector: with a truthy in-scope
`objective_reaction` it is `∓1` at that reaction's (first) column and `0`
elsewhere; otherwise it is `sign/n` on each column whose lower bound is
nonnegative and exactly `0` on each column with a negative lower bound. -/
theorem c5_fba_objective_vector (st : MetaStore) (cfg : SimulationConfig) :
    (∀ r, cfg.objective_reaction = some r → r ≠ "" →
      r ∈ (buildStoichMatrix st cfg).1 →
      (fbaObjective cfg (buildStoichMatrix st cfg).1
          (fbaBounds cfg (buildStoichMatrix st cfg).1 (buildStoichMatrix st cfg).2.2.2)).get?
          ((buildStoichMatrix st cfg).1.indexOf r) =
        some (if cfg.maximize then (-1 : Rat) else 1) ∧
      (∀ j, j < (buildStoichMatrix st cfg).1.length →
        j ≠ (buildStoichMatrix st cfg).1.indexOf r →
        (fbaObjective cfg (buildStoichMatrix st cfg).1
            (fbaBounds cfg (buildStoichMatrix st cfg).1 (buildStoichMatrix st cfg).2.2.2)).get? j =
          some 0)) ∧
    ((cfg.objective_reaction = none ∨ cfg.objective_reaction = some "" ∨
        (∃ r, cfg.objective_reaction = some r ∧ r ∉ (buildStoichMatrix st cfg).1)) →
      ∀ j b,
        (fbaBounds cfg (buildStoichMatrix st cfg).1 (buildStoichMatrix st cfg).2.2.2).get? j =
          some b →
        (fbaObjective cfg (buildStoichMatrix st cfg).1
            (fbaBounds cfg (buildStoichMatrix st cfg).1 (buildStoichMatrix st cfg).2.2.2)).get? j =
          some (if 0 ≤ b.1 then
              (if cfg.maximize then (-1 : Rat) else 1) / ((buildStoichMatrix st cfg).1.length : Rat)
            else 0)) := by
  constructor
  · intro r hor hne hmem
    unfold fbaObjective
    rw [hor]
    simp only [if_pos (And.intro hne hmem)]
    have hidx : (buildStoichMatrix st cfg).1.indexOf r < (buildStoichMatrix st cfg).1.length :=
      List.indexOf_lt_length.mpr hmem
    constructor
    · rw [List.get?_map, List.get?_range hidx]
      simp
    · intro j hj hj'
      rw [List.get?_map, List.get?_range hj]
      simp [hj']
  · intro hsur j b hb
    have hn : j < (buildStoichMatrix st cfg).1.length := by
      have hlen : (fbaBounds cfg (buildStoichMatrix st cfg).1
          (buildStoichMatrix st cfg).2.2.2).length = (buildStoichMatrix st cfg).1.length := by
        unfold fbaBounds
        exact List.length_map _ _
      have := List.get?_eq_some.mp hb
      rcases this with ⟨hlt, _⟩
      rw [hlen] at hlt
      exact hlt
    have hsurEq : fbaObjective cfg (buildStoichMatrix st cfg).1
        (fbaBounds cfg (buildStoichMatrix st cfg).1 (buildStoichMatrix st cfg).2.2.2) =
        fbaSurrogate cfg (buildStoichMatrix st cfg).1.length
          (fbaBounds cfg (buildStoichMatrix st cfg).1 (buildStoichMatrix st cfg).2.2.2) := by
      unfold fbaObjective
      rcases hsur with h | h | ⟨r, hr, hnotin⟩
      · rw [h]
      · rw [h]
        simp
      · rw [hr]
        simp [hnotin]
    rw [hsurEq]
    unfold fbaSurrogate
    rw [List.get?_map, List.get?_range hn]
    simp only [Option.map_some', hb]

def cfgC5a : SimulationConfig :=
  { reaction_ids := some ["rxn:I", "rxn:V"],
    objective_reaction := some "rxn:V" }

/-- Witness for C5: with `objective_reaction = "rxn:V"` (maximising) the
objective is `-1` on that column and `0` on the other; with no objective
reaction the surrogate puts `-1/2` on the irreversible column and `0` on the
reversible one. -/
theorem c5_fba_objective_vector_witness :
    (cfgC5a.objective_reaction = some "rxn:V" ∧ "rxn:V" ≠ "" ∧
      "rxn:V" ∈ (buildStoichMatrix stC4 cfgC5a).1 ∧
      (buildStoichMatrix stC4 cfgC5a).1.indexOf "rxn:V" = 1) ∧
    (fbaObjective cfgC5a (buildStoichMatrix stC4 cfgC5a).1
        (fbaBounds cfgC5a (buildStoichMatrix stC4 cfgC5a).1
          (buildStoichMatrix stC4 cfgC5a).2.2.2)).get? 1 = some (-1) ∧
    (fbaObjective cfgC5a (buildStoichMatrix stC4 cfgC5a).1
        (fbaBounds cfgC5a (buildStoichMatrix stC4 cfgC5a).1
          (buildStoichMatrix stC4 cfgC5a).2.2.2)).get? 0 = some 0 := by
  refine ⟨⟨by decide, by decide, by decide, by decide⟩, ?_, ?_⟩
  · have h := (c5_fba_objective_vector stC4 cfgC5a).1 "rxn:V" rfl (by decide) (by decide)
    exact h.1
  · have h := (c5_fba_objective_vector stC4 cfgC5a).1 "rxn:V" rfl (by decide) (by decide)
    exact h.2 0 (by decide) (by decide)

/-- Claim C6 — contrary to the claim, `run_ode`'s integrator invocation
hard-codes the non-stiff `RK45` method **and** imposes the fixed max-step
cap `t_end / 50` for every configuration (the repository's own test suite
calls this "the old code" whose max-step heuristic caused hangs and expects
a BDF default with `max_step=None`). -/
theorem c6_ode_invocation_rk45_fixed_max_step (cfg : SimulationConfig) :
    (odeSolverCall cfg).method = "RK45" ∧
    (odeSolverCall cfg).max_step = some (cfg.t_end / 50) ∧
    (odeSolverCall cfg).max_step ≠ none :=
  ⟨rfl, rfl, by simp [odeSolverCall]⟩

/-- Claim C7 — a scenario with no knockouts, factors or overrides perturbs
nothing: the perturbed result equals the baseline (for any deterministic
runner) and every delta entry is zero, in both modes. -/
theorem c7_whatif_noop (runF : SimulationConfig → FBAResult)
    (runO : SimulationConfig → ODEResult) (st : MetaStore)
    (cfg : SimulationConfig) (sc : WhatIfScenario)
    (h1 : sc.enzyme_knockouts = []) (h2 : sc.enzyme_factors = [])
    (h3 : sc.initial_conc_overrides = []) :
    (runWhatifFBA runF st cfg sc).perturbed = (runWhatifFBA runF st cfg sc).baseline ∧
    (∀ p ∈ (runWhatifFBA runF st cfg sc).delta_fluxes, p.2 = 0) ∧
    (runWhatifODE runO st cfg sc).perturbed = (runWhatifODE runO st cfg sc).baseline ∧
    (∀ p ∈ (runWhatifODE runO st cfg sc).delta_final_conc, p.2 = 0) := by
  have hap : ∀ mode, applyScenario st cfg sc mode = cfg := by
    intro mode
    unfold applyScenario
    rw [h1, h2, h3]
    rfl
  refine ⟨?_, ?_, ?_, ?_⟩
  · unfold runWhatifFBA
    rw [hap]
  · intro p hp
    unfold runWhatifFBA at hp
    rw [hap] at hp
    simp only [List.mem_map] at hp
    obtain ⟨k, hk, hpk⟩ := hp
    rw [← hpk]
    simp
  · unfold runWhatifODE
    rw [hap]
  · intro p hp
    unfold runWhatifODE at hp
    rw [hap] at hp
    simp only [List.mem_map] at hp
    obtain ⟨k, hk, hpk⟩ := hp
    rw [← hpk]
    simp

/-- Witness for C7: the empty scenario over the `A → 2B` fixture, with
runners returning fixed payloads. -/
theorem c7_whatif_noop_witness :
    ({ name := "noop" } : WhatIfScenario).enzyme_knockouts = [] ∧
    (runWhatifFBA
        (fun _ => { status := "optimal", objective_value := some 1,
                    fluxes := [("rxn:R", 3)], shadow_prices := [], message := "" })
        stA2B cfgR { name := "noop" }).perturbed =
      (runWhatifFBA
        (fun _ => { status := "optimal", objective_value := some 1,
                    fluxes := [("rxn:R", 3)], shadow_prices := [], message := "" })
        stA2B cfgR { name := "noop" }).baseline ∧
    (∀ p ∈ (runWhatifFBA
        (fun _ => { status := "optimal", objective_value := some 1,
                    fluxes := [("rxn:R", 3)], shadow_prices := [], message := "" })
        stA2B cfgR { name := "noop" }).delta_fluxes, p.2 = 0) := by
  have h := c7_whatif_noop
    (fun _ => { status := "optimal", objective_value := some 1,
                fluxes := [("rxn:R", 3)], shadow_prices := [], message := "" })
    (fun _ => { status := "ok", t := [0], concentrations := [], message := "" })
    stA2B cfgR { name := "noop" } rfl rfl rfl
  exact ⟨rfl, h.1, h.2.1⟩

/-- A store with no nodes at all: every scope resolves to zero reactions. -/
def stEmpty : MetaStore :=
  { nodes := [], edges := [], kineticRows := fun _ => [], xref := fun _ => none }

/-- Claim C9 — when the scope resolves to zero reactions, both `run_fba` and
`run_ode` return a status `"error"` result with the descriptive message and
empty numeric payloads, for **every** solver/integrator (i.e. neither is
invoked), and no exception escapes (the embedding is total). -/
theorem c9_empty_scope_error (solve : LPProblem → FBAResult)
    (integrate : OdeSolverCall → (Nat → Rat) → List String → List RxnSpec → ODEResult)
    (st : MetaStore) (cfg : SimulationConfig)
    (h : scopeReactions st cfg = []) :
    runFBA solve st cfg =
      { status := "error", objective_value := none, fluxes := [],
        shadow_prices := [],
        message := "No reactions found for the given configuration." } ∧
    runODE integrate st cfg =
      { status := "error", t := [], concentrations := [],
        message := "No reactions found for the given configuration." } := by
  have hb : buildStoichMatrix st cfg = ([], [], [], []) := by
    rw [buildStoichMatrix_eq, h]
    rfl
  constructor
  · unfold runFBA
    rw [hb]
    rfl
  · unfold runODE
    rw [hb]
    rfl

/-- Witness for C9: the empty store with a default config; the supplied
solver and integrator return non-error payloads, which never surface. -/
theorem c9_empty_scope_error_witness :
    scopeReactions stEmpty {} = [] ∧
    runFBA (fun _ => { status := "optimal", objective_value := some 7,
                       fluxes := [("x", 1)], shadow_prices := [], message := "solved" })
        stEmpty {} =
      { status := "error", objective_value := none, fluxes := [], shadow_prices := [],
        message := "No reactions found for the given configuration." } ∧
    runODE (fun _ _ _ _ => { status := "ok", t := [0], concentrations := [("x", [1])],
                             message := "integrated" })
        stEmpty {} =
      { status := "error", t := [], concentrations := [],
        message := "No reactions found for the given configuration." } := by
  have h := c9_empty_scope_error
    (fun _ => { status := "optimal", objective_value := some 7,
                fluxes := [("x", 1)], shadow_prices := [], message := "solved" })
    (fun _ _ _ _ => { status := "ok", t := [0], concentrations := [("x", [1])],
                      message := "integrated" })
    stEmpty {} rfl
  exact ⟨rfl, h.1, h.2⟩

theorem prod_map_congr (l : List (Nat × Rat)) (f g : Nat × Rat → Rat)
    (h : ∀ p ∈ l, f p = g p) : (l.map f).prod = (l.map g).prod := by
  induction l with
  | nil => rfl
  | cons p ps ih =>
    simp only [List.map, List.prod_cons]
    rw [h p (List.mem_cons_self p ps), ih (fun q hq => h q (List.mem_cons_of_mem p hq))]

/-- Claim C2 (amended) — the `_mm_rate` law, for reactions with at least one
substrate (under positive Michaelis-Menten denominators and an equilibrium
constant at or above the solver's `1e-12` clamp), matches the claimed
formula exactly: `max(0, forward)` if irreversible, forward alone if
reversible without products, else forward minus the Haldane reverse rate; a
reaction with **no substrates in scope** instead always has rate `0`. -/
theorem c2_mm_rate_law (spec : RxnSpec) (y : Nat → Rat) (cpd_ids : List String)
    (hkeq : EPS12 ≤ spec.keq)
    (hsub : ∀ p ∈ spec.substrates, 0 < kmEff spec cpd_ids p.1 + y p.1)
    (hprod : ∀ p ∈ spec.products, 0 < kmEff spec cpd_ids p.1 * spec.keq + y p.1) :
    (spec.substrates = [] → mmRate spec y cpd_ids = 0) ∧
    (spec.substrates ≠ [] → mmRate spec y cpd_ids = claimedRate spec y cpd_ids) := by
  have hfwd : forwardRate spec y cpd_ids = claimedForward spec y cpd_ids := by
    unfold forwardRate claimedForward
    rw [foldl_mul_eq_prod]
    congr 1
    apply prod_map_congr
    intro p hp
    unfold mmFactor
    rw [if_pos (hsub p hp)]
  constructor
  · intro he
    unfold mmRate
    rw [he]
    rfl
  · intro hne
    have hie : spec.substrates.isEmpty = false := by
      cases hs : spec.substrates with
      | nil => exact absurd hs hne
      | cons a as => rfl
    unfold mmRate claimedRate
    rw [hie]
    simp only [Bool.false_eq_true, if_false]
    by_cases hrev : spec.reversible
    · simp only [hrev, not_true, if_false]
      by_cases hpe : spec.products.isEmpty
      · rw [if_pos hpe, if_pos hpe]
        exact hfwd
      · rw [if_neg hpe, if_neg hpe]
        have hclamp : max spec.keq EPS12 = spec.keq := max_eq_left hkeq
        rw [hclamp, hfwd]
        congr 1
        rw [foldl_mul_eq_prod]
        congr 1
        apply prod_map_congr
        intro p hp
        unfold mmFactor
        rw [if_pos (hprod p hp)]
    · simp only [hrev]
      rw [if_pos (by simp [hrev]), if_pos (by simp [hrev])]
      rw [hfwd]

/-- Fixture for the C2 counterexample: an irreversible reaction with a
product edge but **no** substrate edge. -/
def stC2 : MetaStore :=
  { nodes := [{ id := "rxn:S", kind := "reaction", direction := some "irreversible" }],
    edges := [{ src := "rxn:S", rel := "PRODUCT_OF", dst := "cpd:B" }],
    kineticRows := fun _ => [],
    xref := fun _ => none }

def cfgC2 : SimulationConfig := { reaction_ids := some ["rxn:S"] }

def c2Build : List String × List String × List (String × List (String × Rat)) × List (String × Bool) :=
  buildStoichMatrix stC2 cfgC2

def c2Specs : List RxnSpec :=
  buildRxnSpecs c2Build.1 c2Build.2.1 c2Build.2.2.1
    (buildKineticParams stC2 c2Build.1 cfgC2) c2Build.2.2.2

/-- Counterexample to C2 as stated: the reaction `rxn:S` is in scope with no
substrates; its claimed rate (`max(0, Vmax·Π∅) = Vmax = 1`) differs from the
code's rate (`0`). -/
theorem c2_mm_rate_law_counterexample :
    c2Specs = [{ substrates := [], products := [(0, 1)], vmax := 1,
                 km_default := 1/2, km_by_sub := [], reversible := false, keq := 1 }] ∧
    mmRate { substrates := [], products := [(0, 1)], vmax := 1, km_default := 1/2,
             km_by_sub := [], reversible := false, keq := 1 } (fun _ => 1) c2Build.2.1 = 0 ∧
    claimedRate { substrates := [], products := [(0, 1)], vmax := 1, km_default := 1/2,
                  km_by_sub := [], reversible := false, keq := 1 } (fun _ => 1) c2Build.2.1 = 1 := by
  refine ⟨?_, by simp [mmRate], ?_⟩
  · show buildRxnSpecs c2Build.1 c2Build.2.1 c2Build.2.2.1
      (buildKineticParams stC2 c2Build.1 cfgC2) c2Build.2.2.2 = _
    simp [buildRxnSpecs, mkRxnSpec, c2Build, buildStoichMatrix_eq, scopeReactions, scopeFallback,
      cfgC2, stC2, buildStoichState, stoichStep, MetaStore.node, MetaStore.edgesOf, processEdge,
      updateCoeff, dget, dset, sortedKeys, sortKeys, insertKey, Sentry, lastIdx,
      buildKineticParams, kparamStep, paramsFromRows, orDefault, DEFAULT_VMAX, DEFAULT_KM,
      DEFAULT_KEQ, revGet, EPS10, List.range, List.range.loop, List.enum, List.enumFrom,
      List.filterMap, coeffAt]
    norm_num
  · simp [claimedRate, claimedForward, mmRate]

/-- A reversible one-substrate-one-product reaction spec used to witness the
amended rate law. -/
def c2WSpec : RxnSpec :=
  { substrates := [(0, 1)], products := [(1, 2)], vmax := 1, km_default := 1/2,
    km_by_sub := [], reversible := true, keq := 2 }

/-- Witness for C2 (amended): the hypotheses hold for `c2WSpec` at unit
concentrations and the code rate equals the claimed closed form,
`2/3 − (1/2)·(1/2) = 5/12`. -/
theorem c2_mm_rate_law_witness :
    (EPS12 ≤ c2WSpec.keq ∧
      (∀ p ∈ c2WSpec.substrates,
        0 < kmEff c2WSpec ["cpd:A", "cpd:B"] p.1 + (fun _ => (1 : Rat)) p.1) ∧
      (∀ p ∈ c2WSpec.products,
        0 < kmEff c2WSpec ["cpd:A", "cpd:B"] p.1 * c2WSpec.keq + (fun _ => (1 : Rat)) p.1) ∧
      c2WSpec.substrates ≠ []) ∧
    mmRate c2WSpec (fun _ => 1) ["cpd:A", "cpd:B"] =
      claimedRate c2WSpec (fun _ => 1) ["cpd:A", "cpd:B"] ∧
    mmRate c2WSpec (fun _ => 1) ["cpd:A", "cpd:B"] = 5/12 := by
  have hkeq : EPS12 ≤ c2WSpec.keq := by norm_num [EPS12, c2WSpec]
  have hsub : ∀ p ∈ c2WSpec.substrates,
      0 < kmEff c2WSpec ["cpd:A", "cpd:B"] p.1 + (fun _ => (1 : Rat)) p.1 := by
    intro p hp
    simp only [c2WSpec, List.mem_singleton] at hp
    subst hp
    norm_num [kmEff, c2WSpec, dget]
  have hprod : ∀ p ∈ c2WSpec.products,
      0 < kmEff c2WSpec ["cpd:A", "cpd:B"] p.1 * c2WSpec.keq + (fun _ => (1 : Rat)) p.1 := by
    intro p hp
    simp only [c2WSpec, List.mem_singleton] at hp
    subst hp
    norm_num [kmEff, c2WSpec, dget]
  have hne : c2WSpec.substrates ≠ [] := by simp [c2WSpec]
  refine ⟨⟨hkeq, hsub, hprod, hne⟩, ?_, ?_⟩
  · exact (c2_mm_rate_law c2WSpec (fun _ => 1) ["cpd:A", "cpd:B"] hkeq hsub hprod).2 hne
  · simp [mmRate, forwardRate, mmFactor, kmEff, c2WSpec, dget, EPS12]
    norm_num

/-- Claim C10 — the falsy-coalescing `kp.get(...) or DEFAULT` in `run_ode`
never lets the effective Vmax/Km/Keq be exactly `0`: a resolved value of
`0.0` or `None` is replaced by the process-wide default (`Vmax=1`, `Km=0.5`,
`Keq=1`), including when `config.vmax_overrides` maps the reaction to `0.0`
or a `vmax_factor` of `0` was applied. -/
theorem c10_falsy_kinetic_defaults (kparams : List (String × KParams))
    (kp : KParams) (r : String) (rxn_ids cpd_ids : List String)
    (m : List (String × List (String × Rat))) (flags : List (String × Bool))
    (j : Nat) (h : dget kparams r = some kp) :
    ((mkRxnSpec rxn_ids cpd_ids m kparams flags j r).vmax ≠ 0 ∧
      (mkRxnSpec rxn_ids cpd_ids m kparams flags j r).km_default ≠ 0 ∧
      (mkRxnSpec rxn_ids cpd_ids m kparams flags j r).keq ≠ 0) ∧
    ((kp.vmax = none ∨ kp.vmax = some 0) →
      (mkRxnSpec rxn_ids cpd_ids m kparams flags j r).vmax = DEFAULT_VMAX) ∧
    ((kp.km = none ∨ kp.km = some 0) →
      (mkRxnSpec rxn_ids cpd_ids m kparams flags j r).km_default = DEFAULT_KM) ∧
    ((kp.equilibrium_constant = none ∨ kp.equilibrium_constant = some 0) →
      (mkRxnSpec rxn_ids cpd_ids m kparams flags j r).keq = DEFAULT_KEQ) ∧
    (∀ st cfg rxn_scope, r ∈ rxn_scope → cfg.vmax_overrides = [(r, 0)] →
      cfg.vmax_factors = [] →
      (mkRxnSpec rxn_ids cpd_ids m (buildKineticParams st rxn_scope cfg) flags j r).vmax =
        DEFAULT_VMAX) ∧
    (∀ st cfg rxn_scope, r ∈ rxn_scope → cfg.vmax_overrides = [] →
      cfg.vmax_factors = [(r, 0)] →
      (mkRxnSpec rxn_ids cpd_ids m (buildKineticParams st rxn_scope cfg) flags j r).vmax =
        DEFAULT_VMAX) := by
  have horz : ∀ (x : Option Rat) (d : Rat), d ≠ 0 → orDefault x d ≠ 0 := by
    intro x d hd
    unfold orDefault
    cases x with
    | none => exact hd
    | some v =>
      by_cases hv : v = 0
      · simp [hv, hd]
      · simp [hv]
  have hord : ∀ (x : Option Rat) (d : Rat), (x = none ∨ x = some 0) → orDefault x d = d := by
    intro x d hx
    rcases hx with hx | hx <;> simp [hx, orDefault]
  refine ⟨⟨?_, ?_, ?_⟩, ?_, ?_, ?_, ?_, ?_⟩
  · unfold mkRxnSpec
    simp only [h, Option.getD_some]
    exact horz kp.vmax DEFAULT_VMAX (by norm_num [DEFAULT_VMAX])
  · unfold mkRxnSpec
    simp only [h, Option.getD_some]
    exact horz kp.km DEFAULT_KM (by norm_num [DEFAULT_KM])
  · unfold mkRxnSpec
    simp only [h, Option.getD_some]
    exact horz kp.equilibrium_constant DEFAULT_KEQ (by norm_num [DEFAULT_KEQ])
  · intro hx
    unfold mkRxnSpec
    simp only [h, Option.getD_some]
    exact hord kp.vmax DEFAULT_VMAX hx
  · intro hx
    unfold mkRxnSpec
    simp only [h, Option.getD_some]
    exact hord kp.km DEFAULT_KM hx
  · intro hx
    unfold mkRxnSpec
    simp only [h, Option.getD_some]
    exact hord kp.equilibrium_constant DEFAULT_KEQ hx
  · intro st cfg rxn_scope hr hov hfac
    have hbase : dget (rxn_scope.foldl (kparamStep st) []) r =
        some (paramsFromRows (st.kineticRows r)) :=
      dget_kparamFold_mem st rxn_scope [] r hr
    have hres : dget (buildKineticParams st rxn_scope cfg) r =
        some { paramsFromRows (st.kineticRows r) with vmax := some 0 } := by
      unfold buildKineticParams
      rw [hov, hfac]
      simp only [List.foldl, hbase]
      exact dget_dset_same _ _ _
    unfold mkRxnSpec
    simp only [hres, Option.getD_some]
    simp [orDefault]
  · intro st cfg rxn_scope hr hov hfac
    have hbase : dget (rxn_scope.foldl (kparamStep st) []) r =
        some (paramsFromRows (st.kineticRows r)) :=
      dget_kparamFold_mem st rxn_scope [] r hr
    have hres : dget (buildKineticParams st rxn_scope cfg) r =
        some { paramsFromRows (st.kineticRows r) with
                 vmax := some (orDefault (paramsFromRows (st.kineticRows r)).vmax
                   DEFAULT_VMAX * 0) } := by
      unfold buildKineticParams
      rw [hov, hfac]
      simp only [List.foldl, hbase]
      exact dget_dset_same _ _ _
    unfold mkRxnSpec
    simp only [hres, Option.getD_some]
    simp [orDefault]

def kpZero : KParams :=
  { vmax := some 0, km := none, equilibrium_constant := some 0 }

def cfgOv : SimulationConfig := { vmax_overrides := [("rxn:R", 0)] }

/-- Witness for C10: a stored Vmax of `0.0`, a missing Km and a Keq of `0.0`
all resolve to the defaults, and the pipeline instance with
`vmax_overrides = {rxn:R: 0.0}` yields effective Vmax `1`. -/
theorem c10_falsy_kinetic_defaults_witness :
    dget [("rxn:R", kpZero)] "rxn:R" = some kpZero ∧
    (mkRxnSpec [] [] [] [("rxn:R", kpZero)] [] 0 "rxn:R").vmax = DEFAULT_VMAX ∧
    (mkRxnSpec [] [] [] [("rxn:R", kpZero)] [] 0 "rxn:R").km_default = DEFAULT_KM ∧
    (mkRxnSpec [] [] [] [("rxn:R", kpZero)] [] 0 "rxn:R").keq = DEFAULT_KEQ ∧
    (mkRxnSpec [] [] [] [("rxn:R", kpZero)] [] 0 "rxn:R").vmax ≠ 0 ∧
    (mkRxnSpec [] [] [] (buildKineticParams stA2B ["rxn:R"] cfgOv) [] 0 "rxn:R").vmax =
      DEFAULT_VMAX := by
  have h : dget [("rxn:R", kpZero)] "rxn:R" = some kpZero := rfl
  have thm := c10_falsy_kinetic_defaults [("rxn:R", kpZero)] kpZero "rxn:R" [] [] [] [] 0 h
  exact ⟨h, thm.2.1 (Or.inr rfl), thm.2.2.1 (Or.inl rfl), thm.2.2.2.1 (Or.inr rfl),
    thm.1.1, thm.2.2.2.2.1 stA2B cfgOv ["rxn:R"] (by decide) rfl rfl⟩

/-! ### C1 fixture: knockout of the sole enzyme of an irreversible reaction -/

def stC1 : MetaStore :=
  { nodes := [{ id := "rxn:R", kind := "reaction", direction := some "irreversible" },
              { id := "enz:E", kind := "enzyme" }],
    edges := [{ src := "cpd:A", rel := "SUBSTRATE_OF", dst := "rxn:R" },
              { src := "rxn:R", rel := "PRODUCT_OF", dst := "cpd:B" },
              { src := "enz:E", rel := "CATALYZES", dst := "rxn:R" }],
    kineticRows := fun _ => [],
    xref := fun _ => none }

def scKO : WhatIfScenario := { name := "knockout", enzyme_knockouts := ["enz:E"] }

def c1Pert : SimulationConfig := applyScenario stC1 cfgR scKO "ode"

def c1Build : List String × List String × List (String × List (String × Rat)) × List (String × Bool) :=
  buildStoichMatrix stC1 c1Pert

def c1Specs : List RxnSpec :=
  buildRxnSpecs c1Build.1 c1Build.2.1 c1Build.2.2.1
    (buildKineticParams stC1 c1Build.1 c1Pert) c1Build.2.2.2

/-- Claim C1 — knocking out the sole enzyme of `rxn:R` does set the FBA bounds
to `(0,0)` and the ODE Vmax override to `0`, but in ODE mode the
falsy-coalescing fallback resurrects Vmax to the default `1`, so the
reaction's rate at unit concentrations is `2/3`, **not** 0: the ODE half of
the claim fails on the code. -/
theorem c1_knockout_ode_vmax_resurrected :
    (applyScenario stC1 cfgR scKO "fba").flux_bounds = [("rxn:R", (0, 0))] ∧
    fbaBounds (applyScenario stC1 cfgR scKO "fba")
        (buildStoichMatrix stC1 (applyScenario stC1 cfgR scKO "fba")).1
        (buildStoichMatrix stC1 (applyScenario stC1 cfgR scKO "fba")).2.2.2 = [(0, 0)] ∧
    c1Pert.vmax_overrides = [("rxn:R", 0)] ∧
    c1Specs = [{ substrates := [(0, 1)], products := [(1, 1)], vmax := 1,
                 km_default := 1/2, km_by_sub := [], reversible := false, keq := 1 }] ∧
    mmRate { substrates := [(0, 1)], products := [(1, 1)], vmax := 1, km_default := 1/2,
             km_by_sub := [], reversible := false, keq := 1 } (fun _ => 1) c1Build.2.1 = 2/3 ∧
    (2/3 : Rat) ≠ 0 := by
  refine ⟨by decide, by decide, by decide, ?_, ?_, by norm_num⟩
  · show buildRxnSpecs c1Build.1 c1Build.2.1 c1Build.2.2.1
      (buildKineticParams stC1 c1Build.1 c1Pert) c1Build.2.2.2 = _
    have hle : strLe "cpd:A" "cpd:B" = true := by decide
    have hs1 : (-1 : Rat) < -EPS10 := by norm_num [EPS10]
    have hs2 : ¬ ((1 : Rat) < -EPS10) := by norm_num [EPS10]
    have hs3 : EPS10 < (1 : Rat) := by norm_num [EPS10]
    have hs4 : ¬ (EPS10 < (-1 : Rat)) := by norm_num [EPS10]
    simp [buildRxnSpecs, mkRxnSpec, c1Build, c1Pert, buildStoichMatrix_eq, scopeReactions,
      scopeFallback, cfgR, stC1, scKO, applyScenario, reactionsForEnzyme, MetaStore.resolveId,
      buildStoichState, stoichStep, MetaStore.node, MetaStore.edgesOf, processEdge,
      updateCoeff, dget, dset, sortedKeys, sortKeys, insertKey, Sentry, lastIdx,
      buildKineticParams, kparamStep, paramsFromRows, orDefault, DEFAULT_VMAX, DEFAULT_KM,
      DEFAULT_KEQ, revGet, List.range, List.range.loop, List.enum, List.enumFrom,
      List.filterMap, coeffAt, hle, hs1, hs2, hs3, hs4]
  · simp [mmRate, forwardRate, mmFactor, kmEff, dget]
    norm_num

/-- Agreement of a heap with the pre-call heap `h` at one address `n`. -/
def AgreesAt (h : Heap) (n : Nat) (hh : Heap) : Prop :=
  hh.fb n = h.fb n ∧ hh.vo n = h.vo n ∧ hh.vf n = h.vf n ∧ hh.ic n = h.ic n

theorem writeFB_agrees (h hh : Heap) (n a : Nat) (k : String) (v : Rat × Rat)
    (hna : n ≠ a) (hp : AgreesAt h n hh) : AgreesAt h n (writeFB hh a k v) := by
  refine ⟨?_, hp.2.1, hp.2.2.1, hp.2.2.2⟩
  show (if n = a then dset (hh.fb n) k v else hh.fb n) = h.fb n
  rw [if_neg hna]
  exact hp.1

theorem writeVO_agrees (h hh : Heap) (n a : Nat) (k : String) (v : Rat)
    (hna : n ≠ a) (hp : AgreesAt h n hh) : AgreesAt h n (writeVO hh a k v) := by
  refine ⟨hp.1, ?_, hp.2.2.1, hp.2.2.2⟩
  show (if n = a then dset (hh.vo n) k v else hh.vo n) = h.vo n
  rw [if_neg hna]
  exact hp.2.1

theorem writeVF_agrees (h hh : Heap) (n a : Nat) (k : String) (v : Rat)
    (hna : n ≠ a) (hp : AgreesAt h n hh) : AgreesAt h n (writeVF hh a k v) := by
  refine ⟨hp.1, hp.2.1, ?_, hp.2.2.2⟩
  show (if n = a then dset (hh.vf n) k v else hh.vf n) = h.vf n
  rw [if_neg hna]
  exact hp.2.2.1

theorem writeIC_agrees (h hh : Heap) (n a : Nat) (k : String) (v : Rat)
    (hna : n ≠ a) (hp : AgreesAt h n hh) : AgreesAt h n (writeIC hh a k v) := by
  refine ⟨hp.1, hp.2.1, hp.2.2.1, ?_⟩
  show (if n = a then dset (hh.ic n) k v else hh.ic n) = h.ic n
  rw [if_neg hna]
  exact hp.2.2.2

/-- Every address allocated before `_apply_scenario` ran holds exactly its
old contents afterwards: all scenario writes go through the four fresh
addresses of the deep copy. -/
theorem applyScenarioHeap_preserves (st : MetaStore) (h : Heap) (c : ConfigRefs)
    (sc : WhatIfScenario) (mode : String) (n : Nat) (hn : n < h.next) :
    AgreesAt h n (applyScenarioHeap st h c sc mode).1 := by
  have hbase : AgreesAt h n (deepcopyConfig h c).1 := by
    refine ⟨?_, ?_, ?_, ?_⟩ <;>
      · show (if n = _ then _ else _) = _
        rw [if_neg (by omega)]
  have hstep1 : ∀ hh enz, AgreesAt h n hh →
      AgreesAt h n ((reactionsForEnzyme st enz).foldl
        (fun hh r =>
          if mode = "fba" then writeFB hh (deepcopyConfig h c).2.fbRef r (0, 0)
          else writeVO hh (deepcopyConfig h c).2.voRef r 0) hh) := by
    intro hh enz hp
    refine foldl_preserve (AgreesAt h n) _ _ hh hp ?_
    intro x r hx
    by_cases hm : mode = "fba"
    · rw [if_pos hm]
      exact writeFB_agrees h x n _ r (0, 0) (by show n ≠ h.next; omega) hx
    · rw [if_neg hm]
      exact writeVO_agrees h x n _ r 0 (by show n ≠ h.next + 1; omega) hx
  have hstep2 : ∀ hh (p : String × Rat), AgreesAt h n hh →
      AgreesAt h n ((reactionsForEnzyme st p.1).foldl
        (fun hh r =>
          if mode = "fba" then
            let b := (dget (hh.fb (deepcopyConfig h c).2.fbRef) r).getD (0, 1000)
            writeFB hh (deepcopyConfig h c).2.fbRef r (b.1, b.2 * p.2)
          else
            writeVF hh (deepcopyConfig h c).2.vfRef r
              (((dget (hh.vf (deepcopyConfig h c).2.vfRef) r).getD 1) * p.2)) hh) := by
    intro hh p hp
    refine foldl_preserve (AgreesAt h n) _ _ hh hp ?_
    intro x r hx
    by_cases hm : mode = "fba"
    · rw [if_pos hm]
      exact writeFB_agrees h x n _ r _ (by show n ≠ h.next; omega) hx
    · rw [if_neg hm]
      exact writeVF_agrees h x n _ r _ (by show n ≠ h.next + 2; omega) hx
  show AgreesAt h n
    (sc.initial_conc_overrides.foldl
      (fun hh p => writeIC hh (deepcopyConfig h c).2.icRef p.1 p.2)
      (sc.enzyme_factors.foldl _ (sc.enzyme_knockouts.foldl _ (deepcopyConfig h c).1)))
  refine foldl_preserve (AgreesAt h n) _ _ _ ?_ ?_
  · refine foldl_preserve (AgreesAt h n) _ _ _ ?_ ?_
    · exact foldl_preserve (AgreesAt h n) _ _ _ hbase (fun x b hx => hstep1 x b hx)
    · exact fun x b hx => hstep2 x b hx
  · intro x p hx
    exact writeIC_agrees h x n _ p.1 p.2 (by show n ≠ h.next + 3; omega) hx

/-- Claim C8 — `run_whatif` never mutates the caller's config: every container
of a config valid in the pre-call heap is unchanged by `_apply_scenario`,
and the perturbed config's four containers are fresh addresses distinct
from all four of the original's (no shared mutable container). -/
theorem c8_apply_scenario_deepcopy_discipline (st : MetaStore) (h : Heap)
    (c : ConfigRefs) (sc : WhatIfScenario) (mode : String) (hv : c.Valid h) :
    ((applyScenarioHeap st h c sc mode).1.fb c.fbRef = h.fb c.fbRef ∧
      (applyScenarioHeap st h c sc mode).1.vo c.voRef = h.vo c.voRef ∧
      (applyScenarioHeap st h c sc mode).1.vf c.vfRef = h.vf c.vfRef ∧
      (applyScenarioHeap st h c sc mode).1.ic c.icRef = h.ic c.icRef) ∧
    ((applyScenarioHeap st h c sc mode).2.fbRef ∉
        [c.fbRef, c.voRef, c.vfRef, c.icRef] ∧
      (applyScenarioHeap st h c sc mode).2.voRef ∉
        [c.fbRef, c.voRef, c.vfRef, c.icRef] ∧
      (applyScenarioHeap st h c sc mode).2.vfRef ∉
        [c.fbRef, c.voRef, c.vfRef, c.icRef] ∧
      (applyScenarioHeap st h c sc mode).2.icRef ∉
        [c.fbRef, c.voRef, c.vfRef, c.icRef]) := by
  obtain ⟨h1, h2, h3, h4⟩ := hv
  have hrefs : (applyScenarioHeap st h c sc mode).2 =
      { fbRef := h.next, voRef := h.next + 1, vfRef := h.next + 2, icRef := h.next + 3 } := rfl
  constructor
  · exact ⟨(applyScenarioHeap_preserves st h c sc mode c.fbRef h1).1,
      (applyScenarioHeap_preserves st h c sc mode c.voRef h2).2.1,
      (applyScenarioHeap_preserves st h c sc mode c.vfRef h3).2.2.1,
      (applyScenarioHeap_preserves st h c sc mode c.icRef h4).2.2.2⟩
  · rw [hrefs]
    simp only [List.mem_cons, List.not_mem_nil, or_false, not_or]
    refine ⟨⟨?_, ?_, ?_, ?_⟩, ⟨?_, ?_, ?_, ?_⟩, ⟨?_, ?_, ?_, ?_⟩, ⟨?_, ?_, ?_, ?_⟩⟩ <;> omega

/-- Witness for C8: a two-slot heap whose config refs are `0..3`, a knockout
scenario over the `A → 2B` fixture in FBA mode. -/
theorem c8_apply_scenario_deepcopy_discipline_witness :
    (ConfigRefs.Valid { fbRef := 0, voRef := 1, vfRef := 2, icRef := 3 }
      { fb := fun _ => [], vo := fun _ => [], vf := fun _ => [],
        ic := fun _ => [], next := 4 }) ∧
    ((applyScenarioHeap stA2B
        { fb := fun _ => [], vo := fun _ => [], vf := fun _ => [],
          ic := fun _ => [], next := 4 }
        { fbRef := 0, voRef := 1, vfRef := 2, icRef := 3 } scKO "fba").1.fb 0 = [] ∧
      (applyScenarioHeap stA2B
        { fb := fun _ => [], vo := fun _ => [], vf := fun _ => [],
          ic := fun _ => [], next := 4 }
        { fbRef := 0, voRef := 1, vfRef := 2, icRef := 3 } scKO "fba").2.fbRef ∉
        [0, 1, 2, 3]) := by
  have hv : ConfigRefs.Valid { fbRef := 0, voRef := 1, vfRef := 2, icRef := 3 }
      { fb := fun _ => [], vo := fun _ => [], vf := fun _ => [],
        ic := fun _ => [], next := 4 } := by
    refine ⟨?_, ?_, ?_, ?_⟩ <;> decide
  have thm := c8_apply_scenario_deepcopy_discipline stA2B
    { fb := fun _ => [], vo := fun _ => [], vf := fun _ => [],
      ic := fun _ => [], next := 4 }
    { fbRef := 0, voRef := 1, vfRef := 2, icRef := 3 } scKO "fba" hv
  exact ⟨hv, thm.1.1, thm.2.1⟩

end MetaKG
